import Mathlib

/-!
Verification development for the `fvtt-ready-set-roll-5e` module.

The development shallowly embeds the two source files of the repository:
the `QuickRoll` chat-card builder (provided as an unnamed source part) and
`src/utils/patching.js` (the patch registrar and the wrapper-dispatch
functions).  JavaScript runtime values are modelled by the inductive type
`JSVal`; host collaborators (the templating calls, the roll utilities, the
settings store and the alternate-roll predicate) are opaque to this
repository and are therefore universally quantified function parameters.
Mutation-sensitive facts (the `duplicate`/`deepClone` copies protecting the
module defaults and the stored fields) are settled over a small explicit
heap of JS values.
-/

mutual

/-- A JavaScript runtime value, as far as the embedded code inspects one:
`undefined`, `null`, booleans, (integer) numbers, strings, objects modelled
as association lists of key/value entries, and arrays. -/
inductive JSVal where
  | undefined : JSVal
  | null : JSVal
  | bool (b : Bool) : JSVal
  | num (n : Int) : JSVal
  | str (s : String) : JSVal
  | obj (entries : JSEntries) : JSVal
  | arr (elems : JSList) : JSVal
deriving DecidableEq

/-- The ordered key/value entries of a JS object value. -/
inductive JSEntries where
  | nil : JSEntries
  | cons (k : String) (v : JSVal) (rest : JSEntries) : JSEntries
deriving DecidableEq

/-- The ordered elements of a JS array value. -/
inductive JSList where
  | nil : JSList
  | cons (v : JSVal) (rest : JSList) : JSList
deriving DecidableEq

end

/-- Build object entries from a Lean list (notation helper for concrete
values). -/
def JSEntries.ofList : List (String × JSVal) → JSEntries
  | [] => JSEntries.nil
  | (k, v) :: rest => JSEntries.cons k v (JSEntries.ofList rest)

/-- Build array elements from a Lean list (notation helper for concrete
values). -/
def JSList.ofList : List JSVal → JSList
  | [] => JSList.nil
  | v :: rest => JSList.cons v (JSList.ofList rest)

/-- A JS object value from a Lean association list. -/
def jsObj (l : List (String × JSVal)) : JSVal :=
  JSVal.obj (JSEntries.ofList l)

/-- A JS array value from a Lean list. -/
def jsArr (l : List JSVal) : JSVal :=
  JSVal.arr (JSList.ofList l)

/-- First entry stored under key `k`, if any. -/
def JSEntries.lookup : JSEntries → String → Option JSVal
  | JSEntries.nil, _ => none
  | JSEntries.cons k' v rest, k => if k' = k then some v else rest.lookup k

/-- The keys of the entries, in order. -/
def JSEntries.keys : JSEntries → List String
  | JSEntries.nil => []
  | JSEntries.cons k _ rest => k :: rest.keys

/-- Element at index `n`, or the supplied default. -/
def JSList.getD : JSList → Nat → JSVal → JSVal
  | JSList.nil, _, d => d
  | JSList.cons v _, 0, _ => v
  | JSList.cons _ rest, n + 1, d => rest.getD n d

/-- Replace the element at index `n` (no effect past the end). -/
def JSList.set : JSList → Nat → JSVal → JSList
  | JSList.nil, _, _ => JSList.nil
  | JSList.cons _ rest, 0, x => JSList.cons x rest
  | JSList.cons v rest, n + 1, x => JSList.cons v (rest.set n x)

/-- JavaScript truthiness: `undefined`, `null`, `false`, `0` and `""` are
falsy, every other value (in particular every object and array) is truthy. -/
def jsTruthy : JSVal → Bool
  | JSVal.undefined => false
  | JSVal.null => false
  | JSVal.bool b => b
  | JSVal.num n => n != 0
  | JSVal.str s => s != ""
  | _ => true

/-- Property read `v.k`: an object yields the entry stored under `k`
(`undefined` when absent); every other value yields `undefined`. -/
def jsGet (v : JSVal) (k : String) : JSVal :=
  match v with
  | JSVal.obj es => (es.lookup k).getD JSVal.undefined
  | _ => JSVal.undefined

/-- Optional-chained property read `v?.k`: `undefined` when `v` is nullish,
otherwise an ordinary property read.  This is the construct that makes the
source's accesses on absent options/events total instead of throwing. -/
def jsOptGet (v : JSVal) (k : String) : JSVal :=
  match v with
  | JSVal.undefined => JSVal.undefined
  | JSVal.null => JSVal.undefined
  | _ => jsGet v k

/-- Nullish coalescing `a ?? b`. -/
def jsCoalesce (a b : JSVal) : JSVal :=
  match a with
  | JSVal.undefined => b
  | JSVal.null => b
  | _ => a

/-- Short-circuit conjunction `a && b` on JS values: yields `a` when `a` is
falsy, otherwise `b`. -/
def jsAndVal (a b : JSVal) : JSVal :=
  if jsTruthy a then b else a

/-- Strict comparison against the literal `false` (`v === false`). -/
def jsIsFalse : JSVal → Bool
  | JSVal.bool false => true
  | _ => false

/-- Array index read `v[n]` for the array values the embedded code indexes. -/
def jsIndex (v : JSVal) (n : Nat) : JSVal :=
  match v with
  | JSVal.arr es => es.getD n JSVal.undefined
  | _ => JSVal.undefined

/-- The `'k' in v` operator as the source uses it: key membership on an
object value, `false` on every non-object value. -/
def jsIn (k : String) (v : JSVal) : Bool :=
  match v with
  | JSVal.obj es => (es.lookup k).isSome
  | _ => false

/-- Property write on object entries: replace the first entry under `k`, or
append a new entry when `k` is absent. -/
def jsSetEntry : JSEntries → String → JSVal → JSEntries
  | JSEntries.nil, k, v => JSEntries.cons k v JSEntries.nil
  | JSEntries.cons k' v' rest, k, v =>
    if k' = k then JSEntries.cons k v rest
    else JSEntries.cons k' v' (jsSetEntry rest k v)

/-- Sequentially assign every entry of `s` into `t` (later assignments to the
same key win), as a top-level object merge does. -/
def jsMergeEntries : JSEntries → JSEntries → JSEntries
  | t, JSEntries.nil => t
  | t, JSEntries.cons k v rest => jsMergeEntries (jsSetEntry t k v) rest

/-- Modelled from the spec: `foundry.utils.mergeObject` is a host utility not
part of this repository; the spec describes the parameter merge as "a fresh
copy of the defaults overridden by the caller's keys", i.e. a top-level
key-by-key override/insert.  (On the flat default-parameter record of this
module a recursive merge coincides with this top-level merge.) -/
def jsMergeObjectTop (t s : JSVal) : JSVal :=
  match t, s with
  | JSVal.obj te, JSVal.obj se => JSVal.obj (jsMergeEntries te se)
  | _, _ => t

/-- Property write `v.k = x` on an object value; no effect on other values. -/
def jsSetKey (v : JSVal) (k : String) (x : JSVal) : JSVal :=
  match v with
  | JSVal.obj es => JSVal.obj (jsSetEntry es k x)
  | _ => v

/-- Array element write `v[n] = x` on an array value. -/
def jsSetIndex (v : JSVal) (n : Nat) (x : JSVal) : JSVal :=
  match v with
  | JSVal.arr es => JSVal.arr (es.set n x)
  | _ => v

/-! ## The QuickRoll card builder (unnamed source part, `quickroll.js`) -/

/-- The module-level `defaultParams` record, exactly as declared at the top
of the QuickRoll source file. -/
def defaultParamsVal : JSVal :=
  jsObj [
    ("label", JSVal.str ""),
    ("forceCrit", JSVal.bool false),
    ("forceMultiroll", JSVal.bool false),
    ("preset", JSVal.null),
    ("properties", JSVal.bool true),
    ("slotLevel", JSVal.null),
    ("useCharge", jsObj []),
    ("placeTemplate", JSVal.bool false),
    ("hasAdvantage", JSVal.bool false),
    ("hasDisadvantage", JSVal.bool false),
    ("consume", JSVal.bool true),
    ("infoOnly", JSVal.bool false)
  ]

/-- The state of one `QuickRoll` instance.  `itemV`, `actorV` and `tokenId`
hold the values resolved from the constructor's `origin` argument by the
external `CoreUtility.resolveActorOrItem` collaborator; the remaining fields
are the instance fields assigned by the constructor and updated by
`_render`. -/
structure QuickRoll where
  itemV : JSVal
  actorV : JSVal
  tokenId : JSVal
  params : JSVal
  fields : List JSVal
  templates : List JSVal
  properties : List JSVal
  isCrit : Bool
  isMultiroll : Bool
  processed : Bool
  currentId : Int
deriving DecidableEq

/-- The `QuickRoll` constructor body: merge the caller parameters over a
duplicate of `defaultParams` (`params || {}` supplies `{}` for a falsy
argument), store the fields (`fields ?? []`), initialize the template and
property accumulators, derive the crit/multiroll flags, and start the
private id counter at `-1` with `processed` false. -/
def quickRollNew (itemV actorV tokenId : JSVal) (paramsArg : JSVal)
    (fieldsArg : Option (List JSVal)) : QuickRoll :=
  let params := jsMergeObjectTop defaultParamsVal
    (if jsTruthy paramsArg then paramsArg else jsObj [])
  { itemV := itemV
    actorV := actorV
    tokenId := tokenId
    params := params
    fields := fieldsArg.getD []
    templates := []
    properties := []
    isCrit := jsTruthy (jsGet params "forceCrit")
    isMultiroll := jsTruthy (jsGet params "forceMultiroll")
      || jsTruthy (jsGet params "hasAdvantage")
      || jsTruthy (jsGet params "hasDisadvantage")
    processed := false
    currentId := -1 }

/-- The metadata record `_render` passes to `RenderUtility.renderFromField`
for one field. -/
structure Metadata where
  id : Int
  item : JSVal
  actor : JSVal
  slotLevel : JSVal
  isCrit : Bool
  isMultiroll : Bool
deriving DecidableEq

/-- The per-card constants of the metadata built inside `_render`'s loop. -/
structure MetaCtx where
  item : JSVal
  actor : JSVal
  slotLevel : JSVal
  isCrit : Bool
  isMultiroll : Bool
deriving DecidableEq

/-- The metadata context a given QuickRoll supplies to its render loop. -/
def metaCtx (q : QuickRoll) : MetaCtx :=
  { item := q.itemV
    actor := q.actorV
    slotLevel := jsGet q.params "slotLevel"
    isCrit := q.isCrit
    isMultiroll := q.isMultiroll }

/-- The metadata for the field rendered while the private counter holds
`i` (the source reads `this._currentId++`, so the stored value is used and
then incremented). -/
def mkMeta (c : MetaCtx) (i : Int) : Metadata :=
  { id := i, item := c.item, actor := c.actor, slotLevel := c.slotLevel,
    isCrit := c.isCrit, isMultiroll := c.isMultiroll }

/-- The field/metadata pairs produced by `_render`'s `for (const field of
this.fields)` loop, in iteration order, starting from counter value `i`. -/
def renderLoop (c : MetaCtx) : List JSVal → Int → List (JSVal × Metadata)
  | [], _ => []
  | f :: fs, i => (f, mkMeta c i) :: renderLoop c fs (i + 1)

/-- Instrumentation for the two collaborator interactions of `_render`: the
`RenderUtility.renderFromField` calls made so far (with their arguments, in
order) and the number of times the `HOOK_RENDER` notification hook fired. -/
structure RenderLog where
  callLog : List (JSVal × Metadata)
  hookCalls : Nat
deriving DecidableEq

/-- The empty instrumentation log. -/
def emptyLog : RenderLog := { callLog := [], hookCalls := 0 }

/-- The argument record `_render` passes to
`RenderUtility.renderFullCard`. -/
structure CardData where
  item : JSVal
  actor : JSVal
  tokenId : JSVal
  isCritical : Bool
  properties : List JSVal
  templates : List JSVal
deriving DecidableEq

/-- The card data a QuickRoll passes to the full-card render call. -/
def cardData (q : QuickRoll) : CardData :=
  { item := q.itemV, actor := q.actorV, tokenId := q.tokenId,
    isCritical := q.isCrit, properties := q.properties,
    templates := q.templates }

/-- The result of one `_render` call: the rendered html value, the updated
QuickRoll state, and the updated instrumentation log. -/
structure RenderOut where
  html : JSVal
  state : QuickRoll
  log : RenderLog
deriving DecidableEq

/-- `QuickRoll._render`: when `processed` is still false, iterate the fields
in order, give each the metadata carrying the post-incremented private id,
render it through the collaborator `rf` and push the result onto
`templates`, then set `processed`; on every call fire the `HOOK_RENDER`
hook and return `renderFullCard` applied to the card data. -/
def qrRender (rf : JSVal → Metadata → JSVal) (rfc : CardData → JSVal)
    (q : QuickRoll) (log : RenderLog) : RenderOut :=
  let step :
      QuickRoll × RenderLog :=
    if q.processed then (q, log)
    else
      let calls := renderLoop (metaCtx q) q.fields q.currentId
      ({ q with
          templates := q.templates ++ calls.map (fun x => rf x.1 x.2),
          currentId := q.currentId + q.fields.length,
          processed := true },
       { log with callLog := log.callLog ++ calls })
  { html := rfc (cardData step.1),
    state := step.1,
    log := { step.2 with hookCalls := step.2.hookCalls + 1 } }

/-! ## Flag serialization (`QuickRoll._getFlags`) -/

/-- The serialization guard of `_getFlags`:
`field[1] && 'formula' in field[1] && field[1].formula?.formula`, read as a
boolean (each `&&` short-circuits on a falsy operand). -/
def serializeCond (v : JSVal) : Bool :=
  jsTruthy (jsIndex v 1) && jsIn "formula" (jsIndex v 1) &&
    jsTruthy (jsOptGet (jsGet (jsIndex v 1) "formula") "formula")

/-- The flattening assignment of `_getFlags`:
`newField[1].formula = field[1].formula.formula`. -/
def flattenField (v : JSVal) : JSVal :=
  jsSetIndex v 1
    (jsSetKey (jsIndex v 1) "formula"
      (jsGet (jsGet (jsIndex v 1) "formula") "formula"))

/-- Value-level effect of `_getFlags` on one field: the deep clone is
flattened when the guard holds and is otherwise the unchanged copy. -/
def serializeField (v : JSVal) : JSVal :=
  if serializeCond v then flattenField v else v

/-- The structural shape the spec's flattening rule describes: the field's
second element is an object holding, under `formula`, an object that itself
has a `formula` entry. -/
def hasFormulaShape (v : JSVal) : Bool :=
  match jsGet (jsIndex v 1) "formula" with
  | JSVal.obj es => (es.lookup "formula").isSome
  | _ => false

/-- The serialized field list of `_getFlags` at value level. -/
def getFlagsFields (q : QuickRoll) : List JSVal :=
  q.fields.map serializeField

/-- The flags record `_getFlags` returns, with the module version supplied
by the external `CoreUtility.getVersion` collaborator and the derived
actor/item ids supplied by the instance. -/
def qrGetFlags (version actorId itemId : JSVal) (q : QuickRoll) : JSVal :=
  jsObj [
    ("rsr5e", jsObj [
      ("version", version),
      ("actorId", actorId),
      ("itemId", itemId),
      ("tokenId", q.tokenId),
      ("isCrit", JSVal.bool q.isCrit),
      ("properties", jsArr q.properties),
      ("params", q.params),
      ("fields", jsArr (getFlagsFields q))
    ]),
    ("core.canPopout", JSVal.bool true)
  ]

/-! ## A small heap of JS values

The frame claims about `duplicate`/`deepClone` concern mutation through
references, so the relevant pieces of the code are additionally embedded
over an explicit heap: a list of value cells addressed by index.  The
module-level `defaultParams` object lives in cell `0`; a QuickRoll's fields
are cells holding the field arrays. -/

/-- A heap of JS value cells. -/
abbrev JsHeap := List JSVal

/-- Read a heap cell (`undefined` for a dangling reference). -/
def hread (h : JsHeap) (r : Nat) : JSVal :=
  List.getD h r JSVal.undefined

/-- Overwrite a heap cell in place. -/
def hwrite (h : JsHeap) (r : Nat) (v : JSVal) : JsHeap :=
  List.set h r v

/-- Allocate a fresh cell holding `v`; returns the grown heap and the new
reference. -/
def hAlloc (h : JsHeap) (v : JSVal) : JsHeap × Nat :=
  (h ++ [v], List.length h)

/-- The heap cell of the module-level `defaultParams` record. -/
def defaultParamsRef : Nat := 0

/-- The parameter-merge line of the `QuickRoll` constructor over the heap:
`this.params = foundry.utils.mergeObject(foundry.utils.duplicate(defaultParams), params || {})`.
`duplicate` is the host's JSON round-trip deep copy, so it allocates a fresh
cell holding a copy of the defaults; `mergeObject` merges the caller keys
into that fresh cell in place.  Returns the heap after construction and the
reference held by `this.params`. -/
def qrConstructParams (h : JsHeap) (paramsArg : JSVal) : JsHeap × Nat :=
  let dup := hAlloc h (hread h defaultParamsRef)
  let merged := jsMergeObjectTop (hread dup.1 dup.2)
    (if jsTruthy paramsArg then paramsArg else jsObj [])
  (hwrite dup.1 dup.2 merged, dup.2)

/-- The field-serialization loop of `_getFlags` over the heap: for each field
reference, `deepClone` allocates a fresh cell with a copy of the field array
and the flattening assignment (when the guard holds on the original field)
mutates only that fresh cell.  Returns the final heap and the references of
the serialized fields, in order. -/
def hGetFlagsFields : JsHeap → List Nat → JsHeap × List Nat
  | h, [] => (h, [])
  | h, r :: rest =>
    let cl := hAlloc h (hread h r)
    let h2 :=
      if serializeCond (hread cl.1 r) then
        hwrite cl.1 cl.2 (flattenField (hread cl.1 cl.2))
      else cl.1
    let tail := hGetFlagsFields h2 rest
    (tail.1, cl.2 :: tail.2)

/-! ## Wrapper dispatch (`src/utils/patching.js`) -/

/-- One observable collaborator interaction of the patched roll functions:
a call of the original wrapped host method, or a call of one of the
quick-roll collaborators of `RollUtility` (which are what construct a
`QuickRoll`). -/
inductive PatchCall where
  | callOrig (options : JSVal) : PatchCall
  | callRollActorWrapper (id : String) (ignore : JSVal) : PatchCall
  | callRollItemWrapper (ignore : JSVal) : PatchCall
  | callRollSkill : PatchCall
  | callRollAbilityTest : PatchCall
  | callRollAbilitySave : PatchCall
deriving DecidableEq

/-- The bypass test shared by both process wrappers:
`options?.chatMessage === false || options?.vanilla`. -/
def bypassCond (options : JSVal) : Bool :=
  jsIsFalse (jsOptGet options "chatMessage")
    || jsTruthy (jsOptGet options "vanilla")

/-- The actor-roll ignore value: `options?.event?.altKey ?? false`. -/
def actorIgnoreVal (options : JSVal) : JSVal :=
  jsCoalesce (jsOptGet (jsOptGet options "event") "altKey") (JSVal.bool false)

/-- The item-roll ignore value:
`(options?.event?.altKey && !CoreUtility.eventToAltRoll(options?.event)) ?? false`,
with the external alternate-roll predicate abstracted as `pred`. -/
def itemIgnoreVal (pred : JSVal → Bool) (options : JSVal) : JSVal :=
  jsCoalesce
    (jsAndVal (jsOptGet (jsOptGet options "event") "altKey")
      (JSVal.bool (!pred (jsOptGet options "event"))))
    (JSVal.bool false)

/-- `_actorProcessWrapper`: on the bypass path call the original wrapped
method and return its result with `ignore: true`; otherwise compute the
ignore value and delegate to `RollUtility.rollActorWrapper`.  The original
method and the roll collaborator are abstract functions of their JS
arguments; the returned list records which collaborator ran. -/
def actorProcessWrapper (wrapper : String → JSVal → JSVal)
    (rollActorW : String → JSVal → JSVal → JSVal)
    (options : JSVal) (id : String) : JSVal × JSVal × List PatchCall :=
  if bypassCond options then
    (wrapper id options, JSVal.bool true, [PatchCall.callOrig options])
  else
    let ignore := actorIgnoreVal options
    (rollActorW id options ignore, ignore,
      [PatchCall.callRollActorWrapper id ignore])

/-- `_actorRollSkill`: process the wrapper, then either return the bypassed
roll or hand it to `RollUtility.rollSkill`. -/
def actorRollSkill (wrapper : String → JSVal → JSVal)
    (rollActorW : String → JSVal → JSVal → JSVal)
    (rollSkillC : String → JSVal → JSVal)
    (id : String) (options : JSVal) : JSVal × List PatchCall :=
  let p := actorProcessWrapper wrapper rollActorW options id
  if jsTruthy p.2.1 then (p.1, p.2.2)
  else (rollSkillC id p.1, p.2.2 ++ [PatchCall.callRollSkill])

/-- `_actorRollAbilityTest`: same dispatch through
`RollUtility.rollAbilityTest`. -/
def actorRollAbilityTest (wrapper : String → JSVal → JSVal)
    (rollActorW : String → JSVal → JSVal → JSVal)
    (rollTestC : String → JSVal → JSVal)
    (id : String) (options : JSVal) : JSVal × List PatchCall :=
  let p := actorProcessWrapper wrapper rollActorW options id
  if jsTruthy p.2.1 then (p.1, p.2.2)
  else (rollTestC id p.1, p.2.2 ++ [PatchCall.callRollAbilityTest])

/-- `_actorRollAbilitySave`: same dispatch through
`RollUtility.rollAbilitySave`. -/
def actorRollAbilitySave (wrapper : String → JSVal → JSVal)
    (rollActorW : String → JSVal → JSVal → JSVal)
    (rollSaveC : String → JSVal → JSVal)
    (id : String) (options : JSVal) : JSVal × List PatchCall :=
  let p := actorProcessWrapper wrapper rollActorW options id
  if jsTruthy p.2.1 then (p.1, p.2.2)
  else (rollSaveC id p.1, p.2.2 ++ [PatchCall.callRollAbilitySave])

/-- `_itemProcessWrapper`: on the bypass path call the original wrapped
method directly; otherwise compute the ignore value and delegate to
`RollUtility.rollItemWrapper`. -/
def itemProcessWrapper (pred : JSVal → Bool) (wrapper : JSVal → JSVal)
    (rollItemW : JSVal → JSVal → JSVal)
    (options : JSVal) : JSVal × List PatchCall :=
  if bypassCond options then
    (wrapper options, [PatchCall.callOrig options])
  else
    let ignore := itemIgnoreVal pred options
    (rollItemW options ignore, [PatchCall.callRollItemWrapper ignore])

/-- The option merge of `_itemUse`:
`foundry.utils.mergeObject({ event: window.event }, options, { recursive: false })`
— a non-recursive (top-level) merge of the caller options over a base
holding the current global event, so a caller-supplied `event` wins and
every other caller key is kept. -/
def mergeEventOptions (we options : JSVal) : JSVal :=
  match options with
  | JSVal.obj es =>
    JSVal.obj (jsMergeEntries (JSEntries.cons "event" we JSEntries.nil) es)
  | _ => JSVal.obj (JSEntries.cons "event" we JSEntries.nil)

/-- `_itemUse`: merge the global event under the options, then process the
item wrapper. -/
def itemUse (pred : JSVal → Bool) (wrapper : JSVal → JSVal)
    (rollItemW : JSVal → JSVal → JSVal)
    (we options : JSVal) : JSVal × List PatchCall :=
  itemProcessWrapper pred wrapper rollItemW (mergeEventOptions we options)

/-! ## The patch registrar (`PatchingUtility`) -/

/-- The setting names the registrar consults (`SETTING_NAMES.*`). -/
inductive SettingName where
  | quickSkillEnabled : SettingName
  | quickAbilityEnabled : SettingName
  | quickItemEnabled : SettingName
deriving DecidableEq

/-- The registration mode passed to `libWrapper.register`. -/
inductive WrapMode where
  | mixed : WrapMode
  | override : WrapMode
deriving DecidableEq

/-- The actor prototype path used by `patchActors`. -/
def actorPrototypePath : String := "CONFIG.Actor.documentClass.prototype"

/-- The item prototype path used by `patchItems`. -/
def itemPrototypePath : String := "CONFIG.Item.documentClass.prototype"

/-- The item-sheet prototype path used by `patchItemSheets`. -/
def itemSheetPrototypePath : String := "ItemSheet.prototype"

/-- `PatchingUtility.patchActors`: register the skill wrapper when the quick
skill setting is enabled, and the two ability wrappers when the quick
ability setting is enabled. -/
def patchActors (s : SettingName → Bool) : List (String × WrapMode) :=
  (if s SettingName.quickSkillEnabled then
    [(actorPrototypePath ++ ".rollSkill", WrapMode.mixed)]
  else []) ++
  (if s SettingName.quickAbilityEnabled then
    [(actorPrototypePath ++ ".rollAbilityTest", WrapMode.mixed),
     (actorPrototypePath ++ ".rollAbilitySave", WrapMode.mixed)]
  else [])

/-- `PatchingUtility.patchItems`: register the item-use wrapper when the
quick item setting is enabled. -/
def patchItems (s : SettingName → Bool) : List (String × WrapMode) :=
  if s SettingName.quickItemEnabled then
    [(itemPrototypePath ++ ".use", WrapMode.mixed)]
  else []

/-- `PatchingUtility.patchItemSheets`: register the tab-change override when
the quick item setting is enabled. -/
def patchItemSheets (s : SettingName → Bool) : List (String × WrapMode) :=
  if s SettingName.quickItemEnabled then
    [(itemSheetPrototypePath ++ "._onChangeTab", WrapMode.override)]
  else []

/-- One full run of the patch registrar. -/
def registerAll (s : SettingName → Bool) : List (String × WrapMode) :=
  patchActors s ++ patchItems s ++ patchItemSheets s

/-! ## Helper lemmas -/

/-- Coalescing against `false` preserves truthiness: a nullish left operand
becomes the falsy `false`, and any other left operand is kept. -/
theorem jsTruthy_coalesce_false (a : JSVal) :
    jsTruthy (jsCoalesce a (JSVal.bool false)) = jsTruthy a := by
  cases a <;> simp [jsCoalesce, jsTruthy]

/-- Truthiness of a boolean JS value. -/
theorem jsTruthy_bool (b : Bool) : jsTruthy (JSVal.bool b) = b := rfl

/-- The item ignore value is truthy exactly when the (merged) event's
`altKey` is truthy and the alternate-roll predicate rejects the event. -/
theorem itemIgnoreVal_truthy (pred : JSVal → Bool) (o : JSVal) :
    jsTruthy (itemIgnoreVal pred o) =
      (jsTruthy (jsOptGet (jsOptGet o "event") "altKey")
        && !pred (jsOptGet o "event")) := by
  cases hx : jsTruthy (jsOptGet (jsOptGet o "event") "altKey")
  · simp only [itemIgnoreVal, jsAndVal, hx, Bool.false_eq_true, if_false,
      jsTruthy_coalesce_false, Bool.false_and]
  · simp [itemIgnoreVal, jsAndVal, hx, jsCoalesce, jsTruthy_bool]

/-- Structural induction over object entries (the mutual recursor of the
JS value types specialised to a single motive on entries). -/
theorem JSEntries.indOn (P : JSEntries → Prop) (hnil : P JSEntries.nil)
    (hcons : ∀ k v rest, P rest → P (JSEntries.cons k v rest)) :
    ∀ es, P es
  | JSEntries.nil => hnil
  | JSEntries.cons k v rest => hcons k v rest (JSEntries.indOn P hnil hcons rest)

/-- Looking a key up after a property write. -/
theorem lookup_jsSetEntry (t : JSEntries) (k k' : String) (v : JSVal) :
    (jsSetEntry t k v).lookup k' = if k = k' then some v else t.lookup k' := by
  induction t using JSEntries.indOn with
  | hnil => simp [jsSetEntry, JSEntries.lookup]
  | hcons k2 v2 rest ih =>
    by_cases h2 : k2 = k
    · subst h2
      simp only [jsSetEntry, if_pos rfl, JSEntries.lookup]
      split_ifs <;> simp_all [JSEntries.lookup]
    · simp only [jsSetEntry, h2, if_false, JSEntries.lookup]
      by_cases h3 : k2 = k'
      · subst h3
        have hkk : ¬ k = k2 := fun h => h2 h.symm
        simp [JSEntries.lookup, hkk]
      · simp [JSEntries.lookup, h3, ih]

/-- A key absent from the key list has no entry. -/
theorem lookup_eq_none_of_not_mem_keys (es : JSEntries) (k : String)
    (h : k ∉ es.keys) : es.lookup k = none := by
  induction es using JSEntries.indOn with
  | hnil => rfl
  | hcons k1 v1 rest ih =>
    simp [JSEntries.keys] at h
    have h1 : ¬ k1 = k := fun hh => h.1 hh.symm
    simp [JSEntries.lookup, h1, ih h.2]

/-- Lookup through a sequential top-level merge: an entry of the source wins
(source keys assumed unique, as JS object keys are), otherwise the target's
entry remains. -/
theorem lookup_jsMergeEntries (s : JSEntries) :
    ∀ t : JSEntries, s.keys.Nodup → ∀ k,
      (jsMergeEntries t s).lookup k =
        match s.lookup k with
        | some v => some v
        | none => t.lookup k := by
  induction s using JSEntries.indOn with
  | hnil => intro t _ k; simp [jsMergeEntries, JSEntries.lookup]
  | hcons k1 v1 rest ih =>
    intro t hnd k
    have hk1 : k1 ∉ rest.keys := by
      have := hnd
      simp [JSEntries.keys, List.nodup_cons] at this
      exact this.1
    have hnd' : rest.keys.Nodup := by
      have := hnd
      simp [JSEntries.keys, List.nodup_cons] at this
      exact this.2
    show (jsMergeEntries (jsSetEntry t k1 v1) rest).lookup k = _
    rw [ih _ hnd' k]
    by_cases hk : k1 = k
    · subst hk
      have hnone : rest.lookup k1 = none :=
        lookup_eq_none_of_not_mem_keys rest k1 hk1
      simp [JSEntries.lookup, hnone, lookup_jsSetEntry]
    · simp only [JSEntries.lookup, hk, if_false]
      cases hlk : rest.lookup k <;> simp [lookup_jsSetEntry, hk]

/-- The `_itemUse` event merge does not disturb any key other than
`event` (for an options object with unique keys). -/
theorem jsGet_mergeEventOptions (we : JSVal) (es : JSEntries)
    (h : es.keys.Nodup) (k : String) (hk : k ≠ "event") :
    jsGet (mergeEventOptions we (JSVal.obj es)) k = jsGet (JSVal.obj es) k := by
  simp only [mergeEventOptions, jsGet]
  rw [lookup_jsMergeEntries es _ h k]
  have hek : ¬ ("event" = k) := fun hh => hk hh.symm
  cases hlk : es.lookup k <;> simp [JSEntries.lookup, hek]

/-- The bypass test gives the same verdict on the caller options and on the
event-merged options `_itemUse` builds from them. -/
theorem bypassCond_mergeEventOptions (we : JSVal) (es : JSEntries)
    (h : es.keys.Nodup) :
    bypassCond (mergeEventOptions we (JSVal.obj es))
      = bypassCond (JSVal.obj es) := by
  have h1 := jsGet_mergeEventOptions we es h "chatMessage" (by decide)
  have h2 := jsGet_mergeEventOptions we es h "vanilla" (by decide)
  simp only [bypassCond, mergeEventOptions] at h1 h2 ⊢
  simp [jsOptGet, h1, h2]

/-! ## Claim theorems: wrapper dispatch and registrar -/

/-- C8: For every run of the Patch Registrar, a wrapper is registered for a
given host method if and only if the corresponding named boolean setting is
enabled — the skill-roll wrapper under the quick-skill setting, the two
ability wrappers under the quick-ability setting, and the item-use wrapper
and sheet tab-change override under the quick-item setting.  In particular,
with the skill setting disabled no wrapper is registered for the skill-roll
method. -/
theorem c8_registrar_registers_iff_setting (s : SettingName → Bool) :
    ((registerAll s).any
        (fun r => r.1 == actorPrototypePath ++ ".rollSkill")
      = s SettingName.quickSkillEnabled)
    ∧ ((registerAll s).any
        (fun r => r.1 == actorPrototypePath ++ ".rollAbilityTest")
      = s SettingName.quickAbilityEnabled)
    ∧ ((registerAll s).any
        (fun r => r.1 == actorPrototypePath ++ ".rollAbilitySave")
      = s SettingName.quickAbilityEnabled)
    ∧ ((registerAll s).any
        (fun r => r.1 == itemPrototypePath ++ ".use")
      = s SettingName.quickItemEnabled)
    ∧ ((registerAll s).any
        (fun r => r.1 == itemSheetPrototypePath ++ "._onChangeTab")
      = s SettingName.quickItemEnabled) := by
  cases h1 : s SettingName.quickSkillEnabled <;>
  cases h2 : s SettingName.quickAbilityEnabled <;>
  cases h3 : s SettingName.quickItemEnabled <;>
    simp [registerAll, patchActors, patchItems, patchItemSheets, h1, h2, h3,
      actorPrototypePath, itemPrototypePath, itemSheetPrototypePath]

/-- C5: When `options.chatMessage === false` or `options.vanilla` is truthy,
each patched actor roll and the patched item use call only the original
wrapped method and return its result unchanged; no quick-roll collaborator
(`RollUtility.rollActorWrapper` / `rollItemWrapper` / the per-roll helpers)
runs, so no QuickRoll is constructed. -/
theorem c5_bypass_returns_original
    (wrapper : String → JSVal → JSVal)
    (rollActorW : String → JSVal → JSVal → JSVal)
    (rollSkillC rollTestC rollSaveC : String → JSVal → JSVal)
    (pred : JSVal → Bool) (wrapperI : JSVal → JSVal)
    (rollItemW : JSVal → JSVal → JSVal)
    (we options : JSVal) (id : String)
    (h : bypassCond options = true) :
    actorRollSkill wrapper rollActorW rollSkillC id options
        = (wrapper id options, [PatchCall.callOrig options])
    ∧ actorRollAbilityTest wrapper rollActorW rollTestC id options
        = (wrapper id options, [PatchCall.callOrig options])
    ∧ actorRollAbilitySave wrapper rollActorW rollSaveC id options
        = (wrapper id options, [PatchCall.callOrig options])
    ∧ (∀ es : JSEntries, options = JSVal.obj es → es.keys.Nodup →
        itemUse pred wrapperI rollItemW we options
          = (wrapperI (mergeEventOptions we options),
             [PatchCall.callOrig (mergeEventOptions we options)])) := by
  refine ⟨?_, ?_, ?_, ?_⟩
  · simp [actorRollSkill, actorProcessWrapper, h, jsTruthy_bool]
  · simp [actorRollAbilityTest, actorProcessWrapper, h, jsTruthy_bool]
  · simp [actorRollAbilitySave, actorProcessWrapper, h, jsTruthy_bool]
  · intro es he hnd
    subst he
    have hb : bypassCond (mergeEventOptions we (JSVal.obj es)) = true := by
      rw [bypassCond_mergeEventOptions we es hnd]; exact h
    simp [itemUse, itemProcessWrapper, hb]

/-- Witness for C5 at a concrete bypass invocation
(`options = { chatMessage: false }`). -/
theorem c5_bypass_returns_original_witness :
    bypassCond (jsObj [("chatMessage", JSVal.bool false)]) = true
    ∧ actorRollSkill (fun _ _ => JSVal.str "orig") (fun _ _ _ => JSVal.str "qr")
        (fun _ _ => JSVal.str "skill") "acr"
        (jsObj [("chatMessage", JSVal.bool false)])
        = (JSVal.str "orig",
           [PatchCall.callOrig (jsObj [("chatMessage", JSVal.bool false)])])
    ∧ itemUse (fun _ => false) (fun _ => JSVal.str "origItem")
        (fun _ _ => JSVal.str "qrItem") JSVal.undefined
        (jsObj [("chatMessage", JSVal.bool false)])
        = (JSVal.str "origItem",
           [PatchCall.callOrig (mergeEventOptions JSVal.undefined
             (jsObj [("chatMessage", JSVal.bool false)]))]) :=
  ⟨by decide,
   (c5_bypass_returns_original (fun _ _ => JSVal.str "orig")
      (fun _ _ _ => JSVal.str "qr") (fun _ _ => JSVal.str "skill")
      (fun _ _ => JSVal.str "t") (fun _ _ => JSVal.str "s")
      (fun _ => false) (fun _ => JSVal.str "origItem")
      (fun _ _ => JSVal.str "qrItem") JSVal.undefined
      (jsObj [("chatMessage", JSVal.bool false)]) "acr" (by decide)).1,
   (c5_bypass_returns_original (fun _ _ => JSVal.str "orig")
      (fun _ _ _ => JSVal.str "qr") (fun _ _ => JSVal.str "skill")
      (fun _ _ => JSVal.str "t") (fun _ _ => JSVal.str "s")
      (fun _ => false) (fun _ => JSVal.str "origItem")
      (fun _ _ => JSVal.str "qrItem") JSVal.undefined
      (jsObj [("chatMessage", JSVal.bool false)]) "acr"
      (by decide)).2.2.2 _ rfl (by decide)⟩

/-- C2: On the non-bypass path, `_itemUse` hands
`RollUtility.rollItemWrapper` exactly one ignore flag, and that flag is
truthy precisely when the (event-merged) options' `event.altKey` is truthy
and the alternate-roll predicate returns `false` on the event; in every
other combination — including an absent event or absent `altKey` — the flag
is falsy. -/
theorem c2_item_ignore_iff (pred : JSVal → Bool) (wrapperI : JSVal → JSVal)
    (rollItemW : JSVal → JSVal → JSVal) (we options : JSVal)
    (h : bypassCond (mergeEventOptions we options) = false) :
    (itemUse pred wrapperI rollItemW we options
        = (rollItemW (mergeEventOptions we options)
            (itemIgnoreVal pred (mergeEventOptions we options)),
           [PatchCall.callRollItemWrapper
             (itemIgnoreVal pred (mergeEventOptions we options))]))
    ∧ (jsTruthy (itemIgnoreVal pred (mergeEventOptions we options)) = true ↔
        (jsTruthy (jsOptGet (jsOptGet (mergeEventOptions we options) "event")
            "altKey") = true
          ∧ pred (jsOptGet (mergeEventOptions we options) "event") = false)) := by
  constructor
  · simp [itemUse, itemProcessWrapper, h]
  · rw [itemIgnoreVal_truthy]
    simp [Bool.and_eq_true, Bool.not_eq_true']

/-- Witness for C2: Alt held on the global event and a rejecting
alternate-roll predicate yield a truthy ignore flag passed to the
item-roll collaborator. -/
theorem c2_item_ignore_iff_witness :
    bypassCond (mergeEventOptions (jsObj [("altKey", JSVal.bool true)])
        JSVal.undefined) = false
    ∧ itemUse (fun _ => false) (fun _ => JSVal.null) (fun _ ig => ig)
        (jsObj [("altKey", JSVal.bool true)]) JSVal.undefined
        = (JSVal.bool true,
           [PatchCall.callRollItemWrapper (JSVal.bool true)]) := by
  refine ⟨by decide, ?_⟩
  have h := c2_item_ignore_iff (fun _ => false) (fun _ => JSVal.null)
    (fun _ ig => ig) (jsObj [("altKey", JSVal.bool true)]) JSVal.undefined
    (by decide)
  rw [h.1]
  decide

/-- C6: An actor roll invoked with no event in its options and no bypass
options resolves the ignore flag to exactly `false` (the embedding is total
— the source's optional chaining never throws on the absent event), and
each of the three patched actor rolls takes the quick-roll path through
`RollUtility.rollActorWrapper`. -/
theorem c6_actor_no_event_quickroll
    (wrapper : String → JSVal → JSVal)
    (rollActorW : String → JSVal → JSVal → JSVal)
    (rollSkillC rollTestC rollSaveC : String → JSVal → JSVal)
    (id : String) (options : JSVal)
    (hev : jsOptGet options "event" = JSVal.undefined)
    (hb : bypassCond options = false) :
    actorIgnoreVal options = JSVal.bool false
    ∧ actorProcessWrapper wrapper rollActorW options id
        = (rollActorW id options (JSVal.bool false), JSVal.bool false,
           [PatchCall.callRollActorWrapper id (JSVal.bool false)])
    ∧ actorRollSkill wrapper rollActorW rollSkillC id options
        = (rollSkillC id (rollActorW id options (JSVal.bool false)),
           [PatchCall.callRollActorWrapper id (JSVal.bool false),
            PatchCall.callRollSkill])
    ∧ actorRollAbilityTest wrapper rollActorW rollTestC id options
        = (rollTestC id (rollActorW id options (JSVal.bool false)),
           [PatchCall.callRollActorWrapper id (JSVal.bool false),
            PatchCall.callRollAbilityTest])
    ∧ actorRollAbilitySave wrapper rollActorW rollSaveC id options
        = (rollSaveC id (rollActorW id options (JSVal.bool false)),
           [PatchCall.callRollActorWrapper id (JSVal.bool false),
            PatchCall.callRollAbilitySave]) := by
  have hig : actorIgnoreVal options = JSVal.bool false := by
    unfold actorIgnoreVal
    rw [hev]
    rfl
  refine ⟨hig, ?_, ?_, ?_, ?_⟩ <;>
    simp [actorProcessWrapper, actorRollSkill, actorRollAbilityTest,
      actorRollAbilitySave, hb, hig, jsTruthy_bool]

/-- Witness for C6 at concrete empty options. -/
theorem c6_actor_no_event_quickroll_witness :
    jsOptGet (jsObj []) "event" = JSVal.undefined
    ∧ bypassCond (jsObj []) = false
    ∧ actorRollSkill (fun _ _ => JSVal.str "o") (fun _ _ ig => ig)
        (fun _ r => r) "prc" (jsObj [])
        = (JSVal.bool false,
           [PatchCall.callRollActorWrapper "prc" (JSVal.bool false),
            PatchCall.callRollSkill]) := by
  refine ⟨by decide, by decide, ?_⟩
  have h := c6_actor_no_event_quickroll (fun _ _ => JSVal.str "o")
    (fun _ _ ig => ig) (fun _ r => r) (fun _ r => r) (fun _ r => r)
    "prc" (jsObj []) (by decide) (by decide)
  exact h.2.2.1

/-! ## Render lemmas -/

/-- The render loop visits exactly the fields, in order. -/
theorem renderLoop_map_fst (c : MetaCtx) :
    ∀ (fs : List JSVal) (i : Int), (renderLoop c fs i).map Prod.fst = fs
  | [], _ => rfl
  | f :: fs, i => by
    simp [renderLoop, renderLoop_map_fst c fs (i + 1)]

/-- Length of the render loop output. -/
theorem renderLoop_length (c : MetaCtx) :
    ∀ (fs : List JSVal) (i : Int), (renderLoop c fs i).length = fs.length
  | [], _ => rfl
  | f :: fs, i => by
    simp [renderLoop, renderLoop_length c fs (i + 1)]

/-- Pointwise description of the render loop: field `j` is paired with the
metadata whose id is the starting counter plus `j`. -/
theorem renderLoop_getD (c : MetaCtx) :
    ∀ (fs : List JSVal) (i : Int) (j : Nat), j < fs.length →
      (renderLoop c fs i).getD j (JSVal.undefined, mkMeta c 0)
        = (fs.getD j JSVal.undefined, mkMeta c (i + (j : Int)))
  | [], _, j, hj => absurd hj (by simp)
  | f :: fs, i, 0, _ => by
    simp [renderLoop, mkMeta]
  | f :: fs, i, j + 1, hj => by
    have hj' : j < fs.length := by
      simpa using Nat.lt_of_succ_lt_succ (by simpa using hj)
    have ih := renderLoop_getD c fs (i + 1) j hj'
    have harith : i + 1 + (j : Int) = i + ((j + 1 : Nat) : Int) := by
      push_cast
      ring
    simp only [renderLoop]
    rw [List.getD_cons_succ, List.getD_cons_succ, ih, harith]

/-- The metadata ids of the render loop are the consecutive integers
starting at the initial counter value. -/
theorem renderLoop_ids (c : MetaCtx) (fs : List JSVal) (i : Int) :
    (renderLoop c fs i).map (fun x => x.2.id)
      = (List.range fs.length).map (fun n : Nat => i + (n : Int)) := by
  refine List.ext_getElem ?_ ?_
  · simp [renderLoop_length]
  · intro j h1 h2
    have hj : j < fs.length := by
      simpa [renderLoop_length] using h1
    rw [List.getElem_map, List.getElem_map, List.getElem_range]
    have hlen : j < (renderLoop c fs i).length := by
      simpa [renderLoop_length] using hj
    have hgd := renderLoop_getD c fs i j hj
    rw [List.getD_eq_getElem _ _ hlen] at hgd
    rw [hgd]
    rfl

/-- A first `_render` call on an unprocessed QuickRoll appends one rendered
template per field, logs the per-field collaborator calls in order, and
marks the state processed. -/
theorem qrRender_not_processed (rf : JSVal → Metadata → JSVal)
    (rfc : CardData → JSVal) (q : QuickRoll) (log : RenderLog)
    (h : q.processed = false) :
    ((qrRender rf rfc q log).state.templates
        = q.templates
          ++ (renderLoop (metaCtx q) q.fields q.currentId).map
              (fun x => rf x.1 x.2))
    ∧ ((qrRender rf rfc q log).log.callLog
        = log.callLog ++ renderLoop (metaCtx q) q.fields q.currentId)
    ∧ ((qrRender rf rfc q log).state.processed = true)
    ∧ ((qrRender rf rfc q log).log.hookCalls = log.hookCalls + 1) := by
  simp [qrRender, h]

/-- Every `_render` call leaves the state processed. -/
theorem qrRender_processed (rf : JSVal → Metadata → JSVal)
    (rfc : CardData → JSVal) (q : QuickRoll) (log : RenderLog) :
    (qrRender rf rfc q log).state.processed = true := by
  by_cases h : q.processed <;> simp [qrRender, h]

/-! ## Claim theorems: rendering -/

/-- C3: `_render` is idempotent with respect to field processing: a second
call on the rendered QuickRoll leaves the templates unchanged, performs no
further `renderFromField` collaborator call, and still fires the render
notification hook, which fires exactly once per call. -/
theorem c3_render_idempotent (rf : JSVal → Metadata → JSVal)
    (rfc : CardData → JSVal) (q : QuickRoll) (log : RenderLog) :
    ((qrRender rf rfc (qrRender rf rfc q log).state
        (qrRender rf rfc q log).log).state.templates
      = (qrRender rf rfc q log).state.templates)
    ∧ ((qrRender rf rfc (qrRender rf rfc q log).state
        (qrRender rf rfc q log).log).log.callLog
      = (qrRender rf rfc q log).log.callLog)
    ∧ ((qrRender rf rfc (qrRender rf rfc q log).state
        (qrRender rf rfc q log).log).log.hookCalls
      = (qrRender rf rfc q log).log.hookCalls + 1)
    ∧ ((qrRender rf rfc q log).log.hookCalls = log.hookCalls + 1) := by
  have hp := qrRender_processed rf rfc q log
  refine ⟨?_, ?_, ?_, ?_⟩
  · conv_lhs => rw [qrRender]
    simp [hp]
  · conv_lhs => rw [qrRender]
    simp [hp]
  · conv_lhs => rw [qrRender]
    simp [hp]
  · by_cases h : q.processed <;> simp [qrRender, h]

/-- C7: After the first `_render` on a freshly constructed QuickRoll, there
is exactly one template per field, the per-field collaborator is called on
the fields in their input sequence order, and template `j` is the
collaborator's result for field `j` with the metadata whose id is `-1 + j`. -/
theorem c7_templates_in_input_order (itemV actorV tokenId paramsArg : JSVal)
    (fl : List JSVal) (rf : JSVal → Metadata → JSVal) (rfc : CardData → JSVal) :
    ((qrRender rf rfc (quickRollNew itemV actorV tokenId paramsArg (some fl))
        emptyLog).state.templates.length = fl.length)
    ∧ ((qrRender rf rfc (quickRollNew itemV actorV tokenId paramsArg (some fl))
        emptyLog).log.callLog.map Prod.fst = fl)
    ∧ (∀ j, j < fl.length →
        (qrRender rf rfc (quickRollNew itemV actorV tokenId paramsArg (some fl))
          emptyLog).state.templates.getD j JSVal.undefined
          = rf (fl.getD j JSVal.undefined)
              (mkMeta
                (metaCtx (quickRollNew itemV actorV tokenId paramsArg (some fl)))
                (-1 + (j : Int)))) := by
  have hq := qrRender_not_processed rf rfc
    (quickRollNew itemV actorV tokenId paramsArg (some fl)) emptyLog rfl
  have hflds :
      (quickRollNew itemV actorV tokenId paramsArg (some fl)).fields = fl := rfl
  have hcur :
      (quickRollNew itemV actorV tokenId paramsArg (some fl)).currentId = -1 := rfl
  have htem :
      (quickRollNew itemV actorV tokenId paramsArg (some fl)).templates = [] := rfl
  have hT : (qrRender rf rfc (quickRollNew itemV actorV tokenId paramsArg
        (some fl)) emptyLog).state.templates
      = (renderLoop
          (metaCtx (quickRollNew itemV actorV tokenId paramsArg (some fl)))
          fl (-1)).map (fun x => rf x.1 x.2) := by
    rw [hq.1, hflds, hcur, htem]
    simp
  have hC : (qrRender rf rfc (quickRollNew itemV actorV tokenId paramsArg
        (some fl)) emptyLog).log.callLog
      = renderLoop
          (metaCtx (quickRollNew itemV actorV tokenId paramsArg (some fl)))
          fl (-1) := by
    rw [hq.2.1, hflds, hcur]
    simp [emptyLog]
  refine ⟨?_, ?_, ?_⟩
  · rw [hT]
    simp [renderLoop_length]
  · rw [hC, renderLoop_map_fst]
  · intro j hj
    rw [hT]
    have hlen : j < ((renderLoop
        (metaCtx (quickRollNew itemV actorV tokenId paramsArg (some fl)))
        fl (-1)).map (fun x => rf x.1 x.2)).length := by
      simpa [renderLoop_length] using hj
    have hlen2 : j < (renderLoop
        (metaCtx (quickRollNew itemV actorV tokenId paramsArg (some fl)))
        fl (-1)).length := by
      simpa [renderLoop_length] using hj
    rw [List.getD_eq_getElem _ _ hlen, List.getElem_map]
    have hgd := renderLoop_getD
      (metaCtx (quickRollNew itemV actorV tokenId paramsArg (some fl)))
      fl (-1) j hj
    rw [List.getD_eq_getElem _ _ hlen2] at hgd
    rw [hgd]

/-- Witness for C7 at the spec's own scenario: a header field and a damage
field with a nested formula render to exactly two templates in order. -/
theorem c7_templates_in_input_order_witness :
    ((qrRender (fun f m => jsArr [f, JSVal.num m.id]) (fun _ => JSVal.null)
        (quickRollNew JSVal.undefined JSVal.undefined JSVal.null JSVal.undefined
          (some [jsArr [JSVal.str "header", jsObj []],
                 jsArr [JSVal.str "damage",
                   jsObj [("formula", jsObj [("formula", JSVal.str "2d6+3")])]]]))
        emptyLog).state.templates.length = 2)
    ∧ ((qrRender (fun f m => jsArr [f, JSVal.num m.id]) (fun _ => JSVal.null)
        (quickRollNew JSVal.undefined JSVal.undefined JSVal.null JSVal.undefined
          (some [jsArr [JSVal.str "header", jsObj []],
                 jsArr [JSVal.str "damage",
                   jsObj [("formula", jsObj [("formula", JSVal.str "2d6+3")])]]]))
        emptyLog).state.templates.getD 1 JSVal.undefined
      = jsArr [jsArr [JSVal.str "damage",
          jsObj [("formula", jsObj [("formula", JSVal.str "2d6+3")])]],
          JSVal.num 0]) := by
  have h := c7_templates_in_input_order JSVal.undefined JSVal.undefined
    JSVal.null JSVal.undefined
    [jsArr [JSVal.str "header", jsObj []],
     jsArr [JSVal.str "damage",
       jsObj [("formula", jsObj [("formula", JSVal.str "2d6+3")])]]]
    (fun f m => jsArr [f, JSVal.num m.id]) (fun _ => JSVal.null)
  refine ⟨h.1, ?_⟩
  rw [h.2.2 1 (by decide)]
  decide

/-- C1 as stated is false on the code: on the first render of a two-field
card the metadata ids are `-1` then `0`, which is not a monotonically
decreasing sequence (the counter is post-incremented, not decremented). -/
theorem c1_counterexample :
    (((qrRender (fun _ m => JSVal.num m.id) (fun _ => JSVal.null)
        (quickRollNew JSVal.undefined JSVal.undefined JSVal.null JSVal.undefined
          (some [jsArr [JSVal.str "header", jsObj []],
                 jsArr [JSVal.str "attack", jsObj []]]))
        emptyLog).log.callLog.map (fun x => x.2.id)) = [-1, 0])
    ∧ ¬ List.Pairwise (fun a b : Int => b < a)
        ((qrRender (fun _ m => JSVal.num m.id) (fun _ => JSVal.null)
          (quickRollNew JSVal.undefined JSVal.undefined JSVal.null JSVal.undefined
            (some [jsArr [JSVal.str "header", jsObj []],
                   jsArr [JSVal.str "attack", jsObj []]]))
          emptyLog).log.callLog.map (fun x => x.2.id)) := by
  have hids : ((qrRender (fun _ m => JSVal.num m.id) (fun _ => JSVal.null)
      (quickRollNew JSVal.undefined JSVal.undefined JSVal.null JSVal.undefined
        (some [jsArr [JSVal.str "header", jsObj []],
               jsArr [JSVal.str "attack", jsObj []]]))
      emptyLog).log.callLog.map (fun x => x.2.id)) = [-1, 0] := by
    decide
  refine ⟨hids, ?_⟩
  rw [hids]
  intro hp
  have h01 := List.rel_of_pairwise_cons hp (List.mem_singleton.mpr rfl)
  omega

/-- C1 amended: during the first `_render`, the fields are iterated in
order and field `j` receives private sequence id `-1 + j` — a monotonically
increasing sequence starting at `-1`, unique per card. -/
theorem c1_amended_ids_increasing (itemV actorV tokenId paramsArg : JSVal)
    (fl : List JSVal) (rf : JSVal → Metadata → JSVal) (rfc : CardData → JSVal) :
    (((qrRender rf rfc (quickRollNew itemV actorV tokenId paramsArg (some fl))
        emptyLog).log.callLog.map (fun x => x.2.id))
      = (List.range fl.length).map (fun n : Nat => -1 + (n : Int)))
    ∧ List.Pairwise (fun a b : Int => a < b)
        ((qrRender rf rfc (quickRollNew itemV actorV tokenId paramsArg
          (some fl)) emptyLog).log.callLog.map (fun x => x.2.id))
    ∧ ((qrRender rf rfc (quickRollNew itemV actorV tokenId paramsArg
        (some fl)) emptyLog).log.callLog.map (fun x => x.2.id)).Nodup
    ∧ ((qrRender rf rfc (quickRollNew itemV actorV tokenId paramsArg
        (some fl)) emptyLog).log.callLog.map Prod.fst = fl)
    ∧ (0 < fl.length →
        ((qrRender rf rfc (quickRollNew itemV actorV tokenId paramsArg
          (some fl)) emptyLog).log.callLog.map (fun x => x.2.id)).getD 0 0
          = -1) := by
  have hq := qrRender_not_processed rf rfc
    (quickRollNew itemV actorV tokenId paramsArg (some fl)) emptyLog rfl
  have hflds :
      (quickRollNew itemV actorV tokenId paramsArg (some fl)).fields = fl := rfl
  have hcur :
      (quickRollNew itemV actorV tokenId paramsArg (some fl)).currentId = -1 := rfl
  have hC : (qrRender rf rfc (quickRollNew itemV actorV tokenId paramsArg
        (some fl)) emptyLog).log.callLog
      = renderLoop
          (metaCtx (quickRollNew itemV actorV tokenId paramsArg (some fl)))
          fl (-1) := by
    rw [hq.2.1, hflds, hcur]
    simp [emptyLog]
  have hids : ((qrRender rf rfc (quickRollNew itemV actorV tokenId paramsArg
        (some fl)) emptyLog).log.callLog.map (fun x => x.2.id))
      = (List.range fl.length).map (fun n : Nat => -1 + (n : Int)) := by
    rw [hC, renderLoop_ids]
  have hpair : List.Pairwise (fun a b : Int => a < b)
      ((qrRender rf rfc (quickRollNew itemV actorV tokenId paramsArg
        (some fl)) emptyLog).log.callLog.map (fun x => x.2.id)) := by
    rw [hids, List.pairwise_map]
    exact (List.pairwise_lt_range fl.length).imp (fun h => by omega)
  refine ⟨hids, hpair, hpair.imp (fun h => ne_of_lt h), ?_, ?_⟩
  · rw [hC, renderLoop_map_fst]
  · intro h0
    rw [hids]
    have hlen : 0 < ((List.range fl.length).map
        (fun n : Nat => -1 + (n : Int))).length := by
      simpa using h0
    rw [List.getD_eq_getElem _ _ hlen, List.getElem_map, List.getElem_range]
    simp

/-- Witness for the amended C1 on a concrete one-field card. -/
theorem c1_amended_ids_increasing_witness :
    ((qrRender (fun _ m => JSVal.num m.id) (fun _ => JSVal.null)
      (quickRollNew JSVal.undefined JSVal.undefined JSVal.null JSVal.undefined
        (some [jsArr [JSVal.str "header", jsObj []]]))
      emptyLog).log.callLog.map (fun x => x.2.id)).getD 0 0 = -1 :=
  (c1_amended_ids_increasing JSVal.undefined JSVal.undefined JSVal.null
    JSVal.undefined [jsArr [JSVal.str "header", jsObj []]]
    (fun _ m => JSVal.num m.id) (fun _ => JSVal.null)).2.2.2.2 (by decide)

/-! ## Heap lemmas -/

/-- Reading below the end of a grown heap sees the old cell. -/
theorem hread_append_lt (h : JsHeap) (x : JSVal) (r : Nat)
    (hr : r < h.length) : hread (h ++ [x]) r = hread h r :=
  List.getD_append h [x] JSVal.undefined r hr

/-- Reading the freshly allocated cell. -/
theorem hread_append_self (h : JsHeap) (x : JSVal) :
    hread (h ++ [x]) h.length = x := by
  unfold hread
  rw [List.getD_append_right h [x] JSVal.undefined h.length (le_refl _)]
  simp

/-- Appending a copy of a cell never changes what that cell reads as (even
for a dangling reference, where both reads are `undefined`). -/
theorem hread_append_own (h : JsHeap) (r : Nat) :
    hread (h ++ [hread h r]) r = hread h r := by
  rcases lt_trichotomy r h.length with hlt | heq | hgt
  · exact hread_append_lt h _ r hlt
  · rw [heq]
    exact hread_append_self h _
  · unfold hread
    rw [List.getD_append_right h _ JSVal.undefined r (by omega)]
    rw [List.getD_eq_default _ _ (by simp; omega)]
    rw [List.getD_eq_default _ _ (by omega)]

/-- Writing the freshly allocated last cell replaces exactly it. -/
theorem hwrite_append_self (h : JsHeap) (x v : JSVal) :
    hwrite (h ++ [x]) h.length v = h ++ [v] := by
  induction h with
  | nil => rfl
  | cons a t ih =>
    show a :: hwrite (t ++ [x]) t.length v = a :: (t ++ [v])
    rw [ih]

/-- One step of the `_getFlags` field loop: clone the field into a fresh
cell, leave the clone holding the serialized value, and continue on the
grown heap. -/
theorem hGetFlagsFields_cons (h : JsHeap) (r0 : Nat) (rest : List Nat) :
    hGetFlagsFields h (r0 :: rest)
      = ((hGetFlagsFields (h ++ [serializeField (hread h r0)]) rest).1,
         h.length
           :: (hGetFlagsFields (h ++ [serializeField (hread h r0)]) rest).2) := by
  have hrd : hread (h ++ [hread h r0]) r0 = hread h r0 := hread_append_own h r0
  have hself : hread (h ++ [hread h r0]) h.length = hread h r0 :=
    hread_append_self h _
  simp only [hGetFlagsFields, hAlloc]
  rw [hrd, hself]
  by_cases hc : serializeCond (hread h r0)
  · rw [if_pos hc, hwrite_append_self]
    simp [serializeField, hc]
  · rw [if_neg hc]
    simp [serializeField, hc]

/-- Frame property of the `_getFlags` field loop: every cell of the original
heap reads unchanged afterwards (all writes land in freshly allocated
cells). -/
theorem hGetFlagsFields_frame (rs : List Nat) : ∀ (h : JsHeap) (r : Nat),
    r < h.length → hread (hGetFlagsFields h rs).1 r = hread h r := by
  induction rs with
  | nil => intro h r _; rfl
  | cons r0 rest ih =>
    intro h r hr
    rw [hGetFlagsFields_cons h r0 rest]
    have hr' : r < (h ++ [serializeField (hread h r0)]).length := by
      simp
      omega
    rw [ih (h ++ [serializeField (hread h r0)]) r hr']
    exact hread_append_lt h _ r hr

/-- Splitting a shifted range map (the reference lists produced by the
field-serialization loop). -/
theorem cons_range_map (a n : Nat) :
    a :: (List.range n).map (fun i => (a + 1) + i)
      = (List.range (n + 1)).map (fun i => a + i) := by
  refine List.ext_getElem (by simp) ?_
  intro j h1 h2
  cases j with
  | zero => simp
  | succ j =>
    simp only [List.getElem_cons_succ, List.getElem_map, List.getElem_range]
    omega

/-- Full description of the `_getFlags` field loop over valid field
references: it returns the consecutively allocated fresh references, and
each fresh cell holds the serialized value of the corresponding original
field. -/
theorem hGetFlagsFields_spec (rs : List Nat) : ∀ (h : JsHeap),
    (∀ r ∈ rs, r < h.length) →
    ((hGetFlagsFields h rs).2
        = (List.range rs.length).map (fun i => h.length + i))
    ∧ (∀ i, i < rs.length →
        hread (hGetFlagsFields h rs).1 (h.length + i)
          = serializeField (hread h (rs.getD i 0))) := by
  induction rs with
  | nil =>
    intro h _
    exact ⟨rfl, fun i hi => absurd hi (by simp)⟩
  | cons r0 rest ih =>
    intro h hwf
    have hr0 : r0 < h.length := hwf r0 (by simp)
    have hwf' : ∀ r ∈ rest,
        r < (h ++ [serializeField (hread h r0)]).length := by
      intro r hrr
      have := hwf r (by simp [hrr])
      simp
      omega
    have ih2 := ih (h ++ [serializeField (hread h r0)]) hwf'
    rw [hGetFlagsFields_cons h r0 rest]
    constructor
    · show h.length :: (hGetFlagsFields
          (h ++ [serializeField (hread h r0)]) rest).2 = _
      rw [ih2.1]
      have hlen : (h ++ [serializeField (hread h r0)]).length
          = h.length + 1 := by simp
      rw [hlen, List.length_cons]
      exact cons_range_map h.length rest.length
    · intro i hi
      cases i with
      | zero =>
        show hread (hGetFlagsFields
            (h ++ [serializeField (hread h r0)]) rest).1 (h.length + 0) = _
        have hfr := hGetFlagsFields_frame rest
          (h ++ [serializeField (hread h r0)]) h.length (by simp)
        rw [Nat.add_zero, hfr, hread_append_self]
        rfl
      | succ j =>
        have hj : j < rest.length := by
          simpa using Nat.lt_of_succ_lt_succ hi
        have hstep := ih2.2 j hj
        have harith : h.length + (j + 1)
            = (h ++ [serializeField (hread h r0)]).length + j := by
          simp
          omega
        show hread (hGetFlagsFields
            (h ++ [serializeField (hread h r0)]) rest).1 (h.length + (j + 1))
          = serializeField (hread h ((r0 :: rest).getD (j + 1) 0))
        rw [harith, hstep, List.getD_cons_succ]
        have hmem : rest.getD j 0 ∈ rest := by
          rw [List.getD_eq_getElem _ _ hj]
          exact List.getElem_mem hj
        rw [hread_append_lt h _ _ (hwf _ (List.mem_cons_of_mem r0 hmem))]

/-! ## Serialization value lemmas -/

/-- A top-level merge into a non-object target returns the target. -/
theorem jsMergeObjectTop_undefined (s : JSVal) :
    jsMergeObjectTop JSVal.undefined s = JSVal.undefined := by
  cases s <;> rfl

/-- A field whose second element is exactly `{formula: {formula: "1d20+5"}}`
serializes with that element's `formula` flattened to the plain string. -/
theorem serializeField_flattens (kind : JSVal) :
    serializeField (jsArr [kind,
        jsObj [("formula", jsObj [("formula", JSVal.str "1d20+5")])]])
      = jsArr [kind, jsObj [("formula", JSVal.str "1d20+5")]] := rfl

/-- A field without the nested-formula shape serializes unchanged. -/
theorem serializeField_of_no_shape (v : JSVal)
    (h : hasFormulaShape v = false) : serializeField v = v := by
  have hC : jsTruthy (jsOptGet (jsGet (jsIndex v 1) "formula") "formula")
      = false := by
    unfold hasFormulaShape at h
    cases hv : jsGet (jsIndex v 1) "formula" with
    | obj es =>
      rw [hv] at h
      simp only [] at h
      cases hlk : es.lookup "formula" with
      | none => simp [jsOptGet, jsGet, hlk, jsTruthy]
      | some w =>
        rw [hlk] at h
        simp at h
    | undefined => rfl
    | null => rfl
    | bool b => simp [jsOptGet, jsGet, jsTruthy]
    | num n => simp [jsOptGet, jsGet, jsTruthy]
    | str s => simp [jsOptGet, jsGet, jsTruthy]
    | arr es => simp [jsOptGet, jsGet, jsTruthy]
  have hcond : serializeCond v = false := by
    unfold serializeCond
    rw [hC]
    simp
  simp [serializeField, hcond]

/-! ## Claim theorems: flag serialization and parameter defaults -/

/-- C4: `_getFlags` serializes the fields into freshly allocated deep
copies, sharing no reference with the originals; the copy of a field whose
second element is exactly `{formula: {formula: "1d20+5"}}` has that
element's `formula` replaced by the plain string `"1d20+5"`, and the copy
of any field without the nested-formula shape equals the original field
value. -/
theorem c4_getflags_serialization (h : JsHeap) (rs : List Nat)
    (wf : ∀ r ∈ rs, r < h.length) :
    ((hGetFlagsFields h rs).2
        = (List.range rs.length).map (fun i => h.length + i))
    ∧ (∀ r' ∈ (hGetFlagsFields h rs).2, r' ∉ rs)
    ∧ (∀ i, i < rs.length →
        hread (hGetFlagsFields h rs).1 (h.length + i)
          = serializeField (hread h (rs.getD i 0)))
    ∧ (∀ kind : JSVal, serializeField (jsArr [kind,
          jsObj [("formula", jsObj [("formula", JSVal.str "1d20+5")])]])
        = jsArr [kind, jsObj [("formula", JSVal.str "1d20+5")]])
    ∧ (∀ v : JSVal, hasFormulaShape v = false → serializeField v = v) := by
  have hs := hGetFlagsFields_spec rs h wf
  refine ⟨hs.1, ?_, hs.2, fun kind => serializeField_flattens kind,
    fun v hv => serializeField_of_no_shape v hv⟩
  intro r' hr' hrin
  rw [hs.1] at hr'
  simp only [List.mem_map, List.mem_range] at hr'
  obtain ⟨i, _, hri⟩ := hr'
  have := wf r' hrin
  omega

/-- Witness for C4: with a shaped damage field and an unshaped header field
on the heap, the first serialized copy (fresh cell 2) holds the flattened
field. -/
theorem c4_getflags_serialization_witness :
    hread (hGetFlagsFields
        [jsArr [JSVal.str "damage",
          jsObj [("formula", jsObj [("formula", JSVal.str "1d20+5")])]],
         jsArr [JSVal.str "header", jsObj []]]
        [0, 1]).1 2
      = jsArr [JSVal.str "damage", jsObj [("formula", JSVal.str "1d20+5")]] := by
  have h := c4_getflags_serialization
    [jsArr [JSVal.str "damage",
      jsObj [("formula", jsObj [("formula", JSVal.str "1d20+5")])]],
     jsArr [JSVal.str "header", jsObj []]]
    [0, 1] (by decide)
  have h0 := h.2.2.1 0 (by decide)
  simp only [List.length_cons, List.length_nil, Nat.add_zero] at h0
  rw [h0]
  decide

/-- C10: `_getFlags` does not mutate the QuickRoll: every field cell of the
heap reads unchanged after the serialization loop, including fields whose
nested formula object is flattened — the flattening lands only in the
deep-cloned copy. -/
theorem c10_getflags_does_not_mutate (h : JsHeap) (rs : List Nat) (r : Nat)
    (_hmem : r ∈ rs) (hlt : r < h.length) :
    hread (hGetFlagsFields h rs).1 r = hread h r :=
  hGetFlagsFields_frame rs h r hlt

/-- Witness for C10: the original shaped field cell is unchanged even
though its serialized copy is flattened. -/
theorem c10_getflags_does_not_mutate_witness :
    hread (hGetFlagsFields
        [jsArr [JSVal.str "damage",
          jsObj [("formula", jsObj [("formula", JSVal.str "1d20+5")])]]]
        [0]).1 0
      = jsArr [JSVal.str "damage",
          jsObj [("formula", jsObj [("formula", JSVal.str "1d20+5")])]] := by
  have hh := c10_getflags_does_not_mutate
    [jsArr [JSVal.str "damage",
      jsObj [("formula", jsObj [("formula", JSVal.str "1d20+5")])]]]
    [0] 0 (by decide) (by decide)
  rw [hh]
  decide

/-- C9: The parameter merge of the `QuickRoll` constructor writes only a
freshly duplicated cell: the heap is extended by one cell holding the
defaults overridden by the caller's keys (`{}` for a falsy argument), the
module-level `defaultParams` cell reads unchanged, and the instance's
params reference is fresh (distinct from the defaults cell whenever the
defaults cell exists). -/
theorem c9_construct_params (h : JsHeap) (p : JSVal) :
    ((qrConstructParams h p).1
        = h ++ [jsMergeObjectTop (hread h defaultParamsRef)
            (if jsTruthy p then p else jsObj [])])
    ∧ ((qrConstructParams h p).2 = h.length)
    ∧ (hread (qrConstructParams h p).1 defaultParamsRef
        = hread h defaultParamsRef)
    ∧ (hread (qrConstructParams h p).1 (qrConstructParams h p).2
        = jsMergeObjectTop (hread h defaultParamsRef)
            (if jsTruthy p then p else jsObj []))
    ∧ (0 < h.length → (qrConstructParams h p).2 ≠ defaultParamsRef) := by
  have h1 : (qrConstructParams h p).1
      = h ++ [jsMergeObjectTop (hread h defaultParamsRef)
          (if jsTruthy p then p else jsObj [])] := by
    simp only [qrConstructParams, hAlloc]
    rw [hread_append_self, hwrite_append_self]
  refine ⟨h1, rfl, ?_, ?_, ?_⟩
  · rw [h1]
    rcases h with _ | ⟨a, t⟩
    · show hread [jsMergeObjectTop (hread ([] : JsHeap) defaultParamsRef)
          (if jsTruthy p then p else jsObj [])] defaultParamsRef
        = hread ([] : JsHeap) defaultParamsRef
      have : hread ([] : JsHeap) defaultParamsRef = JSVal.undefined := rfl
      rw [this]
      show jsMergeObjectTop JSVal.undefined
          (if jsTruthy p then p else jsObj []) = JSVal.undefined
      exact jsMergeObjectTop_undefined _
    · rfl
  · have h2 : (qrConstructParams h p).2 = h.length := rfl
    rw [h1, h2]
    exact hread_append_self h _
  · intro h0 heq
    have h2 : (qrConstructParams h p).2 = h.length := rfl
    rw [h2] at heq
    unfold defaultParamsRef at heq
    omega

/-- Witness for C9: constructing with `{label: "atk"}` over the canonical
one-cell defaults heap leaves the defaults cell intact and allocates a
distinct params cell. -/
theorem c9_construct_params_witness :
    ((qrConstructParams [defaultParamsVal]
        (jsObj [("label", JSVal.str "atk")])).2 ≠ defaultParamsRef)
    ∧ (hread (qrConstructParams [defaultParamsVal]
        (jsObj [("label", JSVal.str "atk")])).1 defaultParamsRef
      = defaultParamsVal) := by
  have h := c9_construct_params [defaultParamsVal]
    (jsObj [("label", JSVal.str "atk")])
  refine ⟨h.2.2.2.2 (by decide), ?_⟩
  rw [h.2.2.1]
  decide
